import Mathlib

set_option maxRecDepth 16384

/-!
Shallow embedding of the agent orchestration core of `src/src/qflowAgent.ts`
(the `CustomAgentNode` class and its helpers) and proofs about it.

The TypeScript code manipulates JSON values (tool-call parameters, tool
outputs, serialized conversation history), so we first embed a JSON value
type together with models of the JavaScript runtime's `JSON.stringify` and
`JSON.parse` (external collaborators of the code under `src/`).
-/

namespace Pipe

/-- Characters that the token scanner of this development writes via
`Char.ofNat` for clarity: left brace, right brace, double quote, backslash. -/
def lbrace : Char := Char.ofNat 123

def rbrace : Char := Char.ofNat 125

def dquote : Char := Char.ofNat 34

def bslash : Char := Char.ofNat 92

/-- JSON values, as produced by the JavaScript runtime's `JSON.parse` and
consumed by `JSON.stringify`.  Objects keep their fields in insertion order,
as JavaScript objects do.  Numbers are modelled as integers: no claim of this
development depends on fractional or exponent-form numbers. -/
inductive Json where
  | null : Json
  | bool : Bool → Json
  | num : Int → Json
  | str : String → Json
  | arr : List Json → Json
  | obj : List (String × Json) → Json

/-- Hex digit for the `\u00XX` escape form. -/
def hexDigit (n : Nat) : Char :=
  if n < 10 then Char.ofNat (48 + n) else Char.ofNat (87 + n)

/-- Escape a single character the way `JSON.stringify` escapes string
contents.  (`JSON.stringify` prints backspace and form feed as `\b` and `\f`;
this model uses the equally valid `\u00XX` form for all control characters
other than newline, carriage return and tab — no string in this development
contains such characters.) -/
def escChar (c : Char) : List Char :=
  if c = dquote then [bslash, dquote]
  else if c = bslash then [bslash, bslash]
  else if c = Char.ofNat 10 then [bslash, 'n']
  else if c = Char.ofNat 13 then [bslash, 'r']
  else if c = Char.ofNat 9 then [bslash, 't']
  else if c.toNat < 32 then
    [bslash, 'u', '0', '0', hexDigit (c.toNat / 16), hexDigit (c.toNat % 16)]
  else [c]

/-- String escaping of `JSON.stringify`. -/
def jsonEscape (s : String) : String :=
  String.mk (s.data.map escChar).flatten

/-- A JSON string literal: quote, escaped contents, quote. -/
def quoteStr (s : String) : String :=
  String.mk [dquote] ++ jsonEscape s ++ String.mk [dquote]

/-- Join strings with a separator (JavaScript `Array.prototype.join`). -/
def joinSep (sep : String) : List String → String
  | [] => ""
  | [x] => x
  | x :: y :: rest => x ++ sep ++ joinSep sep (y :: rest)

/-- Depth-fuelled serializer behind `Json.stringify`: the recursion is
structural on the nesting-depth fuel, which is what lets proofs evaluate it.
The JavaScript engine itself has a finite recursion depth for
`JSON.stringify` (a stack-overflow exception near depth 10^4); the fixed
depth limit below mirrors that, and every value in this development is
nested only a handful of levels deep. -/
def stringifyFuel : Nat → Json → String
  | 0, _ => ""
  | fuel + 1, j =>
    match j with
    | .null => "null"
    | .bool true => "true"
    | .bool false => "false"
    | .num n => toString n
    | .str s => quoteStr s
    | .arr xs => "[" ++ joinSep "," (xs.map (stringifyFuel fuel)) ++ "]"
    | .obj fs =>
      String.mk [lbrace]
        ++ joinSep "," (fs.map (fun kv => quoteStr kv.1 ++ ":" ++ stringifyFuel fuel kv.2))
        ++ String.mk [rbrace]

/-- The engine's effective nesting-depth limit for serialization. -/
def stringifyDepthLimit : Nat := 10000

/-- Model of the JavaScript runtime's `JSON.stringify` on JSON values
(no indentation argument, as in all call sites of `qflowAgent.ts`). -/
def Json.stringify (j : Json) : String :=
  stringifyFuel stringifyDepthLimit j

/-- JavaScript truthiness of a JSON value (`null`, `false`, `0` and the empty
string are falsy; objects and arrays are always truthy). -/
def Json.truthy : Json → Bool
  | .null => false
  | .bool b => b
  | .num n => n != 0
  | .str s => !(s.data.isEmpty)
  | .arr _ => true
  | .obj _ => true

/-- Property access `o[key]` on a parsed JSON object: `JSON.parse` keeps the
last occurrence of a duplicated key, hence the reversed lookup.  `none`
models JavaScript `undefined`. -/
def jLookup (fs : List (String × Json)) (k : String) : Option Json :=
  fs.reverse.lookup k

/-- Property access `v[key]` on an arbitrary JSON value: non-objects have no
(relevant) named properties. -/
def Json.get? : Json → String → Option Json
  | .obj fs, k => jLookup fs k
  | _, _ => none

/-! Model of the JavaScript runtime's `JSON.parse` (an external collaborator:
the code under `src/` delegates to the engine).  A recursive-descent parser
over the character list, fuelled to make termination structural.  It covers
the JSON grammar used by the program: objects, arrays, strings with the
standard single-character escapes, integer numbers and the three literals.
`JSON.parse` rejects trailing non-whitespace, and so does this model. -/

/-- Skip JSON whitespace. -/
def skipWs : List Char → List Char
  | c :: cs =>
    if c = ' ' || c = Char.ofNat 10 || c = Char.ofNat 9 || c = Char.ofNat 13 then skipWs cs
    else c :: cs
  | [] => []

/-- Decode a single-character string escape (the `\uXXXX` form is not needed
by any input in this development and makes the parse fail, a safe
under-approximation of the engine). -/
def unescapeChar (c : Char) : Option Char :=
  if c = dquote then some dquote
  else if c = bslash then some bslash
  else if c = '/' then some '/'
  else if c = 'n' then some (Char.ofNat 10)
  else if c = 't' then some (Char.ofNat 9)
  else if c = 'r' then some (Char.ofNat 13)
  else none

/-- Parse the contents of a string literal after the opening quote; returns
the decoded characters and the remainder after the closing quote. -/
def parseStringChars : List Char → Option (List Char × List Char)
  | [] => none
  | c :: cs =>
    if c = dquote then some ([], cs)
    else if c = bslash then
      match cs with
      | [] => none
      | e :: rest =>
        match unescapeChar e with
        | none => none
        | some d =>
          match parseStringChars rest with
          | none => none
          | some (out, rem) => some (d :: out, rem)
    else
      match parseStringChars cs with
      | none => none
      | some (out, rem) => some (c :: out, rem)

/-- Digits of a number turned into a natural value. -/
def digitsToNat (ds : List Char) : Nat :=
  ds.foldl (fun acc c => 10 * acc + (c.toNat - 48)) 0

/-- Parse an integer JSON number (optional minus sign, digits). -/
def parseNumber (cs : List Char) : Option (Json × List Char) :=
  let (neg, cs') :=
    match cs with
    | '-' :: rest => (true, rest)
    | _ => (false, cs)
  let ds := cs'.takeWhile Char.isDigit
  let rest := cs'.dropWhile Char.isDigit
  if ds.isEmpty then none
  else
    let n : Int := Int.ofNat (digitsToNat ds)
    some (.num (if neg then -n else n), rest)

mutual

/-- Parse one JSON value; returns it and the unconsumed remainder. -/
def parseVal : Nat → List Char → Option (Json × List Char)
  | 0, _ => none
  | fuel + 1, cs =>
    match skipWs cs with
    | [] => none
    | c :: rest =>
      if c = dquote then
        match parseStringChars rest with
        | none => none
        | some (out, rem) => some (.str (String.mk out), rem)
      else if c = lbrace then parseObjBody fuel rest
      else if c = '[' then parseArrBody fuel rest
      else if ("true".data).isPrefixOf (c :: rest) then some (.bool true, (c :: rest).drop 4)
      else if ("false".data).isPrefixOf (c :: rest) then some (.bool false, (c :: rest).drop 5)
      else if ("null".data).isPrefixOf (c :: rest) then some (.null, (c :: rest).drop 4)
      else parseNumber (c :: rest)

/-- Parse the inside of an object, after the opening brace. -/
def parseObjBody : Nat → List Char → Option (Json × List Char)
  | 0, _ => none
  | fuel + 1, cs =>
    match skipWs cs with
    | [] => none
    | c :: rest =>
      if c = rbrace then some (.obj [], rest)
      else parseObjFields fuel (c :: rest) []

/-- Parse one or more `"key": value` fields followed by `,` or the closing
brace. -/
def parseObjFields : Nat → List Char → List (String × Json) → Option (Json × List Char)
  | 0, _, _ => none
  | fuel + 1, cs, acc =>
    match skipWs cs with
    | [] => none
    | c :: rest =>
      if c = dquote then
        match parseStringChars rest with
        | none => none
        | some (key, r1) =>
          match skipWs r1 with
          | ':' :: r2 =>
            match parseVal fuel r2 with
            | none => none
            | some (v, r3) =>
              match skipWs r3 with
              | ',' :: r4 => parseObjFields fuel r4 (acc ++ [(String.mk key, v)])
              | d :: r4 =>
                if d = rbrace then some (.obj (acc ++ [(String.mk key, v)]), r4)
                else none
              | [] => none
          | _ => none
      else none

/-- Parse the inside of an array, after the opening bracket. -/
def parseArrBody : Nat → List Char → Option (Json × List Char)
  | 0, _ => none
  | fuel + 1, cs =>
    match skipWs cs with
    | ']' :: rest => some (.arr [], rest)
    | cs' => parseArrItems fuel cs' []

/-- Parse one or more array items followed by `,` or the closing bracket. -/
def parseArrItems : Nat → List Char → List Json → Option (Json × List Char)
  | 0, _, _ => none
  | fuel + 1, cs, acc =>
    match parseVal fuel cs with
    | none => none
    | some (v, r1) =>
      match skipWs r1 with
      | ',' :: r2 => parseArrItems fuel r2 (acc ++ [v])
      | ']' :: r2 => some (.arr (acc ++ [v]), r2)
      | _ => none

end

/-- Model of `JSON.parse`: parse one value, require only whitespace after it.
`none` models a thrown `SyntaxError`. -/
def jsonParse (s : String) : Option Json :=
  match parseVal (2 * s.length + 8) s.data with
  | none => none
  | some (v, rest) => if (skipWs rest).isEmpty then some v else none

/-! Response parser: `CustomAgentNode.parseLLMResponse` (qflowAgent.ts
lines 378-437).  The LLM node used by this agent (`AgentDeepSeekLLMNode`)
always returns a trimmed string (line 80-82), so the `typeof llmResponse ===
'string'` branch is the one taken at every call site; the structured-payload
branch below it is unreachable here and is not modelled. -/

/-- Find the index of the last occurrence of a character. -/
def lastIdxOf (c : Char) (cs : List Char) : Option Nat :=
  match cs.reverse.findIdx? (fun d => d == c) with
  | none => none
  | some r => some (cs.length - 1 - r)

/-- Lines 380-387: `indexOf('{')` / `lastIndexOf('}')` and the defensive
slice to the substring between them (inclusive); the string is left whole
when the braces are absent or out of order. -/
def extractJsonSlice (s : String) : String :=
  let cs := s.data
  match cs.findIdx? (fun d => d == lbrace), lastIdxOf rbrace cs with
  | some f, some l => if f < l then String.mk ((cs.drop f).take (l - f + 1)) else s
  | _, _ => s

/-- Parse result `{thought, toolCalls, parallel}` (line 392-396).  `thought`
and the tool-call list are returned exactly as decoded; `parallel` models
`parsed.parallel || false` by its truthiness — the value steers the
parallel/sequential branch at line 253, and is recorded in the assistant
history entry at line 172, where an absent or boolean `parallel` (the only
shapes exercised here) serializes identically. -/
structure ParsedResponse where
  thought : Json
  toolCalls : List Json
  parallel : Bool

/-- Stand-in for the engine-specific `SyntaxError` message interpolated at
line 401; its exact wording comes from the JavaScript runtime, not from the
code under `src/`. -/
def jsonSyntaxErrMsg : String := "Unexpected token in JSON"

/-- Message thrown at line 398 when the decoded object fails the shape check. -/
def missingShapeMsg : String := "JSON is missing 'thought' or 'tool_calls' array."

/-- Model of `CustomAgentNode.parseLLMResponse`, string branch (lines 379-403).
Note that the shape-check `throw` at line 398 is caught by the same `catch`
as the `JSON.parse` failure, so both surface with the `Invalid JSON format:`
prefix and the sliced content appended.  The check `parsed.thought &&
Array.isArray(parsed.tool_calls)` requires a *truthy* `thought`. -/
def parseLLMResponse (s : String) : Except String ParsedResponse :=
  let jsonString := extractJsonSlice s
  match jsonParse jsonString with
  | none => .error ("Invalid JSON format: " ++ jsonSyntaxErrMsg ++ ". Content: " ++ jsonString)
  | some parsed =>
    match parsed.get? "thought", parsed.get? "tool_calls" with
    | some t, some (.arr tcs) =>
      if t.truthy then
        .ok { thought := t, toolCalls := tcs,
              parallel := (parsed.get? "parallel").elim false Json.truthy }
      else .error ("Invalid JSON format: " ++ missingShapeMsg ++ ". Content: " ++ jsonString)
    | _, _ => .error ("Invalid JSON format: " ++ missingShapeMsg ++ ". Content: " ++ jsonString)

/-! Tool registry, validator and executor. -/

/-- Modelled from the spec: the tool-definitions module (`./tool-definitions`,
imported at qflowAgent.ts line 3) is not under `src/`; per §3 of the spec a
`ToolDefinition` is `{name, description, parameterSchema}` where the schema
"enumerates required/optional parameter names".  `validateToolParameters`
reads only `def.name` and `def.parameters.required || []`, so the model keeps
the name and the required-parameter list. -/
structure ToolDef where
  name : String
  required : List String

/-- A tool call as the orchestrator reads it off a decoded JSON item:
`tc.tool` (compared with `===` against registered names, hence only a string
value can match — any other value is displayed as a name that matches no
definition) and `tc.parameters` (an object; the system prompt instructs the
model to always supply one, and every claim exercises calls that do). -/
structure ToolCall where
  tool : String
  parameters : List (String × Json)

/-- Read a `{tool, parameters}` record from a decoded JSON array item.
A non-string `tool` field is modelled by the display string a template
literal would produce for `undefined`, which matches no registered name. -/
def toolCallOfJson (j : Json) : ToolCall :=
  { tool :=
      match j.get? "tool" with
      | some (.str s) => s
      | _ => "undefined",
    parameters :=
      match j.get? "parameters" with
      | some (.obj fs) => fs
      | _ => [] }

/-- Model of `CustomAgentNode.validateToolParameters` (lines 288-318).  `defs` stands
for `getToolDefinitions()` and `flowRegistry` for the keys of
`this.flowRegistry`.  Returns `some violation` or `none`, like the source's
string-or-null. -/
def validateToolParameters (defs : List ToolDef) (flowRegistry : List String)
    (tc : ToolCall) : Option String :=
  match defs.find? (fun d => d.name == tc.tool) with
  | none => some ("Tool '" ++ tc.tool ++ "' is not a recognized tool.")
  | some toolSchema =>
    if tc.tool == "finish" then
      if (jLookup tc.parameters "output").isNone then
        some "Missing required parameter: 'output' for tool 'finish'."
      else none
    else if tc.tool == "sub_flow" || tc.tool == "iterator" then
      match jLookup tc.parameters "flow" with
      | none => some ("Missing required parameter: 'flow' for tool '" ++ tc.tool ++ "'.")
      | some v =>
        match v with
        | .str n =>
          if flowRegistry.contains n then none
          else some ("Flow '" ++ n ++ "' not found in registry for tool '" ++ tc.tool ++ "'.")
        | _ => some ("Flow '" ++ "undefined" ++ "' not found in registry for tool '" ++ tc.tool ++ "'.")
    else
      match toolSchema.required.find? (fun p => (jLookup tc.parameters p).isNone) with
      | some p => some ("Missing required parameter: '" ++ p ++ "' for tool '" ++ tc.tool ++ "'.")
      | none => none

/-- Behaviour of the external collaborators of one run: the language model
(indexed by step number), the confirmation channel (indexed by step number),
and the registered tool handlers (`toolFlow.runAsync`, qflowAgent.ts line
229/231 — an output value or a thrown error message). -/
structure AgentEnv where
  llm : Nat → Except String String
  confirm : Nat → String
  runTool : String → List (String × Json) → Except String Json

/-- Construction-time configuration of `CustomAgentNode` / `QflowAgent`:
the tool definitions, the names with a registered handler instance
(`this.availableTools`), the flow-registry keys, the confirmation switch,
`maxSteps`, the history budget, and the optional summarizer behaviour
(`this.summarizeLLM` together with what `SummarizeNode` does with it). -/
structure AgentConfig where
  toolDefs : List ToolDef
  availableTools : List String
  flowRegistry : List String
  requireFinishConfirmation : Bool
  maxSteps : Nat
  maxHistoryTokens : Nat
  summarizer : Option (String → Except String String)

/-- Body of the `try` block of `executeTool` (lines 212-244) for a call whose
tool has a registered instance: the sub-flow registry check (lines 215-221,
a miss throws), the handler run (lines 229/231), and the large-output
summarization (lines 236-243 — note the summarizer's failure is thrown into
the same `catch` as a handler failure).  An `.error` is what the `catch` at
line 245 receives. -/
def attemptRun (env : AgentEnv) (cfg : AgentConfig) (tc : ToolCall) : Except String Json :=
  let flowOk : Except String Unit :=
    if tc.tool == "sub_flow" || tc.tool == "iterator" || tc.tool == "scheduler" then
      match jLookup tc.parameters "flow" with
      | some (.str n) =>
        if cfg.flowRegistry.contains n then .ok ()
        else .error ("Flow '" ++ n ++ "' not found in registry.")
      | _ => .error ("Flow '" ++ "undefined" ++ "' not found in registry.")
    else .ok ()
  match flowOk with
  | .error e => .error e
  | .ok _ =>
    match env.runTool tc.tool tc.parameters with
    | .error e => .error e
    | .ok out =>
      match cfg.summarizer, out with
      | some f, .str s =>
        if s.length > 1000 then
          match f s with
          | .ok summary => .ok (.str summary)
          | .error e => .error e
        else .ok out
      | _, _ => .ok out

/-- What `executeTool` (lines 203-250) returns: the bare error *string* of
the tool-not-found early return (line 208), or the `{output, success: true}`
/ `{error, success: false}` records of lines 244 and 248. -/
inductive ExecResult where
  | notFound : String → ExecResult
  | ok : Json → ExecResult
  | err : String → ExecResult

/-- The inner `executeTool` closure (lines 203-250). -/
def executeTool (env : AgentEnv) (cfg : AgentConfig) (tc : ToolCall) : ExecResult :=
  if cfg.availableTools.contains tc.tool then
    match attemptRun env cfg tc with
    | .ok out => .ok out
    | .error e => .err e
  else
    .notFound ("Error: Tool '" ++ tc.tool ++ "' not found. Available tools: "
      ++ joinSep ", " cfg.availableTools ++ ".")

/-- The fields contributed by `...result` when building one element of the
`observations` array.  When `executeTool` returned a bare string (tool not
found), spreading it contributes its characters under the integer-like keys
"0", "1", ... — and no `output`/`error`/`success` field at all. -/
inductive ObsPayload where
  | strSpread : String → ObsPayload
  | success : Json → ObsPayload
  | failure : String → ObsPayload

/-- One element of the `observations` array (lines 255-268): the object
`{tool, parameters, ...result}`. -/
structure ObsEntry where
  tool : String
  parameters : List (String × Json)
  payload : ObsPayload

/-- Whether an observation entry's payload has the ToolResult record shape
`{output|error, success : bool}` of spec §3. -/
def ObsPayload.isToolResultShape : ObsPayload → Bool
  | .strSpread _ => false
  | .success _ => true
  | .failure _ => true

/-- Build the observation entry `{tool, parameters, ...result}` for one call. -/
def mkObsEntry (tc : ToolCall) (r : ExecResult) : ObsEntry :=
  { tool := tc.tool, parameters := tc.parameters,
    payload :=
      match r with
      | .notFound s => .strSpread s
      | .ok out => .success out
      | .err e => .failure e }

/-- Lines 252-269: parallel mode maps `executeTool` over the batch and zips
the results back by index (`Promise.all` settles in input order); sequential
mode folds over the batch pushing one entry at a time. -/
def executeBatch (env : AgentEnv) (cfg : AgentConfig) (parallel : Bool)
    (tcs : List ToolCall) : List ObsEntry :=
  if parallel then
    List.zipWith mkObsEntry tcs (tcs.map (fun tc => executeTool env cfg tc))
  else
    tcs.foldl (fun acc tc => acc ++ [mkObsEntry tc (executeTool env cfg tc)]) []

/-- Serialization of an observation entry: JavaScript object keys that look
like array indices (the spread-string case) are enumerated first in
ascending order, before the insertion-ordered named keys. -/
def obsEntryJson (e : ObsEntry) : Json :=
  match e.payload with
  | .success out =>
    .obj [("tool", .str e.tool), ("parameters", .obj e.parameters),
          ("output", out), ("success", .bool true)]
  | .failure m =>
    .obj [("tool", .str e.tool), ("parameters", .obj e.parameters),
          ("error", .str m), ("success", .bool false)]
  | .strSpread s =>
    .obj ((s.data.enum.map (fun p => (toString p.1, Json.str (String.mk [p.2]))))
      ++ [("tool", .str e.tool), ("parameters", .obj e.parameters)])

/-! Conversation history and its compaction:
`CustomAgentNode.manageConversationHistory` (lines 339-376). -/

/-- One element of `this.conversationHistory`: `{role, content}`. -/
structure Message where
  role : String
  content : String

instance : Inhabited Message := ⟨⟨"", ""⟩⟩

/-- Serialization of one history entry by `JSON.stringify` (keys in insertion order
`role`, `content`). -/
def serializeMessage (m : Message) : String :=
  (Json.obj [("role", .str m.role), ("content", .str m.content)]).stringify

/-- Serialization `JSON.stringify(this.conversationHistory)` — its `.length` is the
"token" count of lines 345/374 (JavaScript counts UTF-16 units; identical to
the character count for the ASCII data of this development). -/
def serializeHistory (h : List Message) : String :=
  (Json.arr (h.map (fun m => Json.obj [("role", .str m.role), ("content", .str m.content)]))).stringify

/-- Model of JavaScript `String.prototype.startsWith`: prefix test on the
character sequence. -/
def strStartsWith (s p : String) : Bool :=
  p.data.isPrefixOf s.data

/-- ASCII lower-casing of one character (all confirmation tokens in this
development are ASCII). -/
def charLower (c : Char) : Char :=
  if 65 ≤ c.toNat && c.toNat ≤ 90 then Char.ofNat (c.toNat + 32) else c

/-- Model of JavaScript `String.prototype.toLowerCase` on ASCII data. -/
def strToLower (s : String) : String :=
  String.mk (s.data.map charLower)

/-- Whitespace recognised by `trim`. -/
def isWsChar (c : Char) : Bool :=
  c = ' ' || c = Char.ofNat 9 || c = Char.ofNat 10 || c = Char.ofNat 13

/-- Model of JavaScript `String.prototype.trim`. -/
def strTrim (s : String) : String :=
  String.mk (((s.data.dropWhile isWsChar).reverse.dropWhile isWsChar).reverse)

/-- Model of JavaScript `String.prototype.substring(n)` (drop the first `n`
characters). -/
def strDrop (s : String) (n : Nat) : String :=
  String.mk (s.data.drop n)

/-- The loop guard of line 349: serialized size over budget *and* length
above the protected floor `minHistoryLength = 2`. -/
def compactGuard (cfg : AgentConfig) (h : List Message) : Bool :=
  decide ((serializeHistory h).length > cfg.maxHistoryTokens) && decide (h.length > 2)

/-- One iteration of the trimming loop body (lines 350-374), given the
summarizer behaviour `f`: inspect `conversationHistory[2]`; a user entry
whose content starts with `"Observation:"` is summarized in place (prefixed
`"Summarized Observation: "`) or, if the summarizer fails, spliced out; any
other entry is spliced out. -/
def compactStep (f : String → Except String String) (h : List Message) : List Message :=
  match h[2]? with
  | none => h
  | some oldestEntry =>
    if oldestEntry.role == "user" && strStartsWith oldestEntry.content "Observation:" then
      let observationContent := strTrim (strDrop oldestEntry.content ("Observation:".length))
      match f observationContent with
      | .ok summarizedContent =>
        h.set 2 { oldestEntry with content := "Summarized Observation: " ++ summarizedContent }
      | .error _ => h.eraseIdx 2
    else h.eraseIdx 2

/-- The `while` loop of lines 349-375, with explicit iteration fuel. -/
def compactLoop (f : String → Except String String) (cfg : AgentConfig) :
    Nat → List Message → List Message
  | 0, h => h
  | fuel + 1, h => if compactGuard cfg h then compactLoop f cfg fuel (compactStep f h) else h

/-- Model of `CustomAgentNode.manageConversationHistory` (lines 339-376): a no-op
(beyond a warning event) when no summarizer is configured; otherwise the
trimming loop.  The fuel `2 * h.length + 1` is proved sufficient below
(`c10_compaction_terminates`): the source's `while` loop always exits within
that many iterations. -/
def manageConversationHistory (cfg : AgentConfig) (h : List Message) : List Message :=
  match cfg.summarizer with
  | none => h
  | some f => compactLoop f cfg (2 * h.length + 1) h

/-! The orchestrator loop: `CustomAgentNode.execAsync` (lines 121-286). -/

/-- Stand-in for the system prompt assembled by `getSystemPrompt`
(lines 320-330).  Its instructional prose is abridged: no claim depends on
its text, and the interpolated tool descriptions come from the
tool-definitions module that is not under `src/`.  The structure — fixed
prose, one description line per tool definition, an optional flow-registry
section — follows the source. -/
def getSystemPrompt (defs : List ToolDef) (flowRegistry : List String) : String :=
  "You are Q, an autonomous agent. Available Tools: "
    ++ joinSep ", " (defs.map (fun d => d.name))
    ++ (if flowRegistry.isEmpty then ""
        else " Available Pre-defined Flows: " ++ joinSep ", " flowRegistry)

/-- The seed history of lines 129-133: system prompt, restated goal,
phase-framing instruction. -/
def seedHistory (cfg : AgentConfig) (goal : String) : List Message :=
  [⟨"system", getSystemPrompt cfg.toolDefs cfg.flowRegistry⟩,
   ⟨"user", "Goal: " ++ goal⟩,
   ⟨"system", "You are now at the \x27Understand & Explore\x27 phase. Analyze the user\x27s request and the directory/codebase, then formulate a plan."⟩]

/-- The system nudge pushed after an empty `tool_calls` array (line 175). -/
def noActionMsg : String :=
  "Your last step resulted in no action. Re-evaluate your plan. If you are stuck, consider using a different tool or asking the user for clarification with the \x27interactive_input\x27tool."

/-- The system instruction pushed after every tool-execution phase
(line 276). -/
def postObservationMsg : String :=
  "You have just received an observation from your tools. Analyze the result and proceed to the next step in your plan. If the observation was an error, you must adjust your plan to fix the error."

/-- The run state owned by the orchestrator: the conversation history, the
`finalOutput` variable, the step counter — plus two ghost fields that record
externally observable activity: the number of model requests issued and the
names of the tools whose handler was actually invoked. -/
structure AgentState where
  history : List Message
  finalOutput : Option Json
  step : Nat
  requests : Nat
  toolLog : List String

/-- Outcome of one iteration of the `while` loop: fall through to the next
iteration (`continue`/end of body) or leave the loop (`break` at line 199). -/
inductive StepOutcome where
  | next : AgentState → StepOutcome
  | finished : AgentState → StepOutcome

/-- The state carried by either outcome. -/
def StepOutcome.state : StepOutcome → AgentState
  | .next s => s
  | .finished s => s

/-- One iteration of the orchestrator loop body (lines 138-277): bump the
step counter, compact-and-request (`getLLMAction`, lines 332-337, counted as
one model request whether or not the transport throws), parse, validate,
record the assistant turn, then dispatch on empty calls / a `finish` call /
tool execution. -/
def stepOnce (env : AgentEnv) (cfg : AgentConfig) (st0 : AgentState) : StepOutcome :=
  let n := st0.step + 1
  let st : AgentState := { st0 with
    step := n, requests := st0.requests + 1,
    history := manageConversationHistory cfg st0.history }
  match env.llm n with
  | .error e =>
    .next { st with history := st.history
      ++ [⟨"user", "Error: Failed to get LLM response: " ++ e⟩] }
  | .ok llmResponse =>
    match parseLLMResponse llmResponse with
    | .error e =>
      .next { st with history := st.history
        ++ [⟨"user", "Error: Your response was not valid JSON or did not follow the expected format. Please respond with a \x27thought\x27 and \x27tool_calls\x27 array. Error: " ++ e ++ ". Your last response was: " ++ llmResponse⟩] }
    | .ok parsed =>
      let tcs := parsed.toolCalls.map toolCallOfJson
      let validationErrors :=
        (tcs.map (fun tc => validateToolParameters cfg.toolDefs cfg.flowRegistry tc)).filterMap id
      if validationErrors.isEmpty then
        let st : AgentState := { st with history := st.history
          ++ [⟨"assistant", (Json.obj [("thought", parsed.thought),
                ("tool_calls", Json.arr parsed.toolCalls),
                ("parallel", Json.bool parsed.parallel)]).stringify⟩] }
        if tcs.isEmpty then
          .next { st with history := st.history ++ [⟨"system", noActionMsg⟩] }
        else
          match tcs.find? (fun tc => tc.tool == "finish") with
          | some finishToolCall =>
            let st : AgentState := { st with finalOutput := jLookup finishToolCall.parameters "output" }
            if cfg.requireFinishConfirmation then
              let confirmation := env.confirm n
              if strToLower confirmation == "yes" then .finished st
              else
                .next { st with history := st.history
                  ++ [⟨"user", "User has provided new instructions: " ++ confirmation ++ ". Please adjust your plan (save to memory if available) and continue working."⟩] }
            else .finished st
          | none =>
            let observations := executeBatch env cfg parsed.parallel tcs
            let st : AgentState := { st with
              history := st.history
                ++ [⟨"user", "Observation: " ++ (Json.arr (observations.map obsEntryJson)).stringify⟩],
              toolLog := st.toolLog ++ (observations.filter
                (fun e => e.payload.isToolResultShape)).map (fun e => e.tool) }
            .next { st with history := st.history ++ [⟨"system", postObservationMsg⟩] }
      else
        let errorMessage := "Tool parameter validation failed for one or more tools: "
          ++ joinSep "; " validationErrors ++ ". Please correct the parameters."
        .next { st with history := st.history ++ [⟨"user", "Error: " ++ errorMessage⟩] }

/-- The `while (step < this.maxSteps)` loop, by recursion on the remaining
step budget (`maxSteps - step`, which every iteration decreases by one). -/
def runLoop (env : AgentEnv) (cfg : AgentConfig) : Nat → AgentState → AgentState
  | 0, st => st
  | rem + 1, st =>
    match stepOnce env cfg st with
    | .next st' => runLoop env cfg rem st'
    | .finished st' => st'

/-- The prefix of the synthesized max-steps fallback message (line 280). -/
def maxStepsFallbackPrefix : String :=
  "Agent reached max steps without finishing. Last observation: "

/-- Result of one run: the value returned by `execAsync` and the final state. -/
structure RunResult where
  output : Option Json
  state : AgentState

/-- Model of `CustomAgentNode.execAsync` (lines 121-286): seed the history, run the
loop, and apply the max-steps fallback of lines 279-283 (taken only when the
loop ran out of steps with `finalOutput` still null). -/
def runAgent (env : AgentEnv) (cfg : AgentConfig) (goal : String) : RunResult :=
  let st0 : AgentState := ⟨seedHistory cfg goal, none, 0, 0, []⟩
  let stf := runLoop env cfg cfg.maxSteps st0
  if cfg.maxSteps ≤ stf.step && stf.finalOutput.isNone then
    let message := maxStepsFallbackPrefix ++ serializeMessage (stf.history.getLastD default)
    { output := some (.str message), state := { stf with finalOutput := some (.str message) } }
  else
    { output := stf.finalOutput, state := stf }

/-! Concrete fixtures used by witnesses and counterexamples. -/

/-- Whether `sub` occurs as a prefix of some suffix of the character list. -/
def subOccurs (sub : List Char) : List Char → Bool
  | [] => sub.isEmpty
  | c :: rest => sub.isPrefixOf (c :: rest) || subOccurs sub rest

/-- Whether `sub` occurs as a substring of `s` (JavaScript `includes`). -/
def strContains (s sub : String) : Bool :=
  subOccurs sub.data s.data

/-- A concrete tool-definition registry: `finish` plus a few of the tools the
system prompt of the source refers to.  (The real registry lives in the
tool-definitions module, which is not under `src/`.) -/
def sampleDefs : List ToolDef :=
  [⟨"finish", ["output"]⟩, ⟨"list_directory", []⟩,
   ⟨"duckduckgo_search", ["query"]⟩, ⟨"shell_command", ["command"]⟩]

/-- The handler registry constructed by `QflowAgent` (lines 463-470). -/
def sampleAvailable : List String :=
  ["shell_command", "read_file", "write_file", "list_directory", "user_input",
   "system_notification"]

/-- Configuration: confirmation gate on, one step, large history budget, no
summarizer. -/
def cfgOneStep : AgentConfig :=
  ⟨sampleDefs, sampleAvailable, [], true, 1, 100000, none⟩

/-- Environment for the C1 run: the model proposes `finish` with output "X"
at every step, and the confirmation channel answers with new instructions
(not an approval). -/
def envC1 : AgentEnv :=
  ⟨fun _ => .ok "\x7b\"thought\":\"d\",\"tool_calls\":[\x7b\"tool\":\"finish\",\"parameters\":\x7b\"output\":\"X\"\x7d\x7d]\x7d",
   fun _ => "no, also check main.go",
   fun _ _ => .ok (.str "out")⟩

/-- Environment for the C3 run: the model asks for `list_directory` at every
step and the handler returns "FILES". -/
def envC3 : AgentEnv :=
  ⟨fun _ => .ok "\x7b\"thought\":\"t\",\"tool_calls\":[\x7b\"tool\":\"list_directory\",\"parameters\":\x7b\x7d\x7d]\x7d",
   fun _ => "yes",
   fun _ _ => .ok (.str "FILES")⟩

/-- C1: `FinalOutput` should be set only when a `finish` call is approved by
the confirmation gate; after a rejection the run that exhausts `maxSteps`
should return the synthesized max-steps fallback, not the rejected proposal.
The code sets `finalOutput` *before* the gate (line 181) and never clears it
on rejection (lines 191-195), so the guard `finalOutput === null` at line 279
blocks the fallback and `execAsync` returns the rejected proposal "X": the
gate's rejection is visible in the history, yet the run's result is "X" and
not the fallback message. -/
theorem c1_rejected_finish_output_persists :
  (runAgent envC1 cfgOneStep "g").output = some (Json.str "X") ∧
  (runAgent envC1 cfgOneStep "g").state.history.getLastD default =
    ⟨"user", "User has provided new instructions: no, also check main.go. Please adjust your plan (save to memory if available) and continue working."⟩ ∧
  "X" ≠ maxStepsFallbackPrefix
    ++ serializeMessage ((runAgent envC1 cfgOneStep "g").state.history.getLastD default) := by
  refine ⟨rfl, rfl, ?_⟩
  decide

/-- The not-found message produced for a `duckduckgo_search` call against the
handler registry of `QflowAgent` (line 206). -/
def searchNotFoundMsg : String :=
  "Error: Tool 'duckduckgo_search' not found. Available tools: shell_command, read_file, write_file, list_directory, user_input, system_notification."

/-- C4: every observation element should be a `{tool, parameters,
output|error, success}` record, including calls whose tool has no registered
handler.  For such a call `executeTool` returns the bare error *string*
(line 208), and spreading a string at lines 255-259 contributes its
characters under integer-like keys — the entry has no `success`,
`output` or `error` field at all.  Here `duckduckgo_search` passes
validation (it is a defined tool) but has no handler instance. -/
theorem c4_unregistered_tool_breaks_result_shape :
  validateToolParameters sampleDefs [] ⟨"duckduckgo_search", [("query", Json.str "q")]⟩ = none ∧
  executeBatch envC3 cfgOneStep true [⟨"duckduckgo_search", [("query", Json.str "q")]⟩] =
    [⟨"duckduckgo_search", [("query", Json.str "q")], .strSpread searchNotFoundMsg⟩] ∧
  ObsPayload.isToolResultShape (.strSpread searchNotFoundMsg) = false := by
  exact ⟨rfl, rfl, rfl⟩

/-- C5 counterexample: the violation for an unknown tool name is
`Tool '<name>' is not a recognized tool.` (line 293) — it names the call's
tool but does *not* list the registered tool names: the registered name
`shell_command` does not occur in it. -/
theorem c5_counterexample :
  validateToolParameters sampleDefs [] ⟨"ghost", []⟩ =
    some "Tool 'ghost' is not a recognized tool." ∧
  strContains "Tool 'ghost' is not a recognized tool." "shell_command" = false := by
  exact ⟨rfl, by decide⟩

/-- C5 amended: for every proposed call whose tool name matches no
registered definition, `validateToolParameters` returns a non-null violation
that names the call's tool — but does not list the registered names. -/
theorem c5_unknown_tool_violation (defs : List ToolDef) (flowRegistry : List String)
    (tc : ToolCall) (h : defs.find? (fun d => d.name == tc.tool) = none) :
    validateToolParameters defs flowRegistry tc =
      some ("Tool '" ++ tc.tool ++ "' is not a recognized tool.") := by
  unfold validateToolParameters
  rw [h]

/-- Witness for `c5_unknown_tool_violation` at a concrete unknown tool. -/
theorem c5_unknown_tool_violation_witness :
    validateToolParameters sampleDefs [] ⟨"ghost", []⟩ =
      some ("Tool '" ++ "ghost" ++ "' is not a recognized tool.") :=
  c5_unknown_tool_violation sampleDefs [] ⟨"ghost", []⟩ rfl

/-- The C6 counterexample input: a well-formed JSON object whose `thought`
field is present (the empty string) and whose `tool_calls` field is a list. -/
def sEmptyThought : String := "\x7b\"thought\":\"\",\"tool_calls\":[]\x7d"

/-- C6 counterexample: the input contains a first brace and a later brace,
the enclosed substring decodes to an object with a `thought` field (of string
type) and a `tool_calls` list — yet the parser fails, because line 391
requires a *truthy* `thought` and the empty string is falsy. -/
theorem c6_counterexample :
  jsonParse (extractJsonSlice sEmptyThought) =
    some (Json.obj [("thought", Json.str ""), ("tool_calls", Json.arr [])]) ∧
  parseLLMResponse sEmptyThought =
    .error ("Invalid JSON format: " ++ missingShapeMsg ++ ". Content: " ++ sEmptyThought) := by
  exact ⟨rfl, rfl⟩


/-- Whether a payload is a success record (`success: true` with an `output`
field). -/
def ObsPayload.isSuccessShape : ObsPayload → Bool
  | .success _ => true
  | _ => false

/-- Whether a payload is a success record whose string output contains
`sub` as a substring. -/
def payloadRetains (p : ObsPayload) (sub : String) : Bool :=
  match p with
  | .success (.str t) => strContains t sub
  | _ => false

/-- A 1001-character tool output, over the summarization threshold. -/
def bigOutput : String := String.mk (List.replicate 1001 'a')

/-- Configuration with a summarizer that always fails with "boom". -/
def cfgC2 : AgentConfig :=
  ⟨sampleDefs, ["read_file"], [], true, 1, 100000, some (fun _ => .error "boom")⟩

/-- Environment whose `read_file` handler returns the 1001-character output. -/
def envC2 : AgentEnv :=
  ⟨fun _ => .ok "", fun _ => "yes", fun _ _ => .ok (.str bigOutput)⟩

/-- The C2 tool call. -/
def tcC2 : ToolCall := ⟨"read_file", [("path", .str "big.txt")]⟩

/-- C2 counterexample: a call whose output exceeds 1000 characters and whose
summarization fails is *not* reported as successful with the original output
plus a warning — the summarizer's exception lands in the same `catch` as a
handler failure (lines 245-249), so the entry is `{error: "boom", success:
false}` and the original output is gone from the observation. -/
theorem c2_counterexample :
  (mkObsEntry tcC2 (executeTool envC2 cfgC2 tcC2)).payload = .failure "boom" ∧
  ObsPayload.isSuccessShape (mkObsEntry tcC2 (executeTool envC2 cfgC2 tcC2)).payload = false ∧
  payloadRetains (mkObsEntry tcC2 (executeTool envC2 cfgC2 tcC2)).payload bigOutput = false := by
  exact ⟨rfl, rfl, rfl⟩

/-- C2 amended: for every executed call with a registered handler (not a
sub-flow tool) whose string output exceeds 1000 characters, when a summarizer
is configured and fails, `executeTool` reports the call as *failed* carrying
the summarizer's error message, and the observation entry is
`{tool, parameters, error, success: false}` — the original output is dropped
from the observation (it is only surfaced through the `tool_result` event
emitted before summarization). -/
theorem c2_summarizer_failure_reports_error (env : AgentEnv) (cfg : AgentConfig)
    (tc : ToolCall) (f : String → Except String String) (s m : String)
    (hsum : cfg.summarizer = some f)
    (hreg : cfg.availableTools.contains tc.tool = true)
    (hflow : (tc.tool == "sub_flow" || tc.tool == "iterator" || tc.tool == "scheduler") = false)
    (hrun : env.runTool tc.tool tc.parameters = .ok (.str s))
    (hlen : s.length > 1000)
    (hfail : f s = .error m) :
    executeTool env cfg tc = .err m ∧
    mkObsEntry tc (executeTool env cfg tc) = ⟨tc.tool, tc.parameters, .failure m⟩ := by
  have hexec : executeTool env cfg tc = .err m := by
    unfold executeTool attemptRun
    rw [hreg, hflow]
    simp only [if_true, Bool.false_eq_true, if_false, hrun, hsum, hfail, hlen, if_pos]
  exact ⟨hexec, by rw [hexec]; rfl⟩

/-- Witness for `c2_summarizer_failure_reports_error` on the concrete C2
fixtures. -/
theorem c2_summarizer_failure_reports_error_witness :
    executeTool envC2 cfgC2 tcC2 = .err "boom" ∧
    mkObsEntry tcC2 (executeTool envC2 cfgC2 tcC2) = ⟨tcC2.tool, tcC2.parameters, .failure "boom"⟩ :=
  c2_summarizer_failure_reports_error envC2 cfgC2 tcC2 (fun _ => .error "boom") bigOutput "boom"
    rfl rfl rfl rfl (by decide) rfl

/-- C6 amended: for every string input whose brace-delimited slice decodes to
a JSON object with a *truthy* `thought` field and a `tool_calls` list, the
parser succeeds and returns that thought and tool-call list, with `parallel`
defaulting to false when absent. -/
theorem c6_truthy_thought_parses (s : String) (fs : List (String × Json)) (t : Json)
    (l : List Json)
    (hdec : jsonParse (extractJsonSlice s) = some (Json.obj fs))
    (ht : jLookup fs "thought" = some t)
    (htruthy : t.truthy = true)
    (hl : jLookup fs "tool_calls" = some (Json.arr l)) :
    parseLLMResponse s = .ok ⟨t, l, (jLookup fs "parallel").elim false Json.truthy⟩ ∧
    (jLookup fs "parallel" = none → (jLookup fs "parallel").elim false Json.truthy = false) := by
  constructor
  · simp only [parseLLMResponse]
    rw [hdec]
    simp only [Json.get?, ht, hl, htruthy, if_true]
  · intro hp
    rw [hp]
    rfl

/-- The decoded fields of the C6 witness reply (the model wraps the JSON in
prose, exercising the brace-slicing). -/
def c6GoodFields : List (String × Json) :=
  [("thought", Json.str "ok"), ("tool_calls", Json.arr [])]

/-- Witness for `c6_truthy_thought_parses` on a concrete prose-wrapped reply. -/
theorem c6_truthy_thought_parses_witness :
    parseLLMResponse "Sure! \x7b\"thought\":\"ok\",\"tool_calls\":[]\x7d thanks" =
      .ok ⟨Json.str "ok", [], (jLookup c6GoodFields "parallel").elim false Json.truthy⟩ ∧
    (jLookup c6GoodFields "parallel" = none →
      (jLookup c6GoodFields "parallel").elim false Json.truthy = false) :=
  c6_truthy_thought_parses "Sure! \x7b\"thought\":\"ok\",\"tool_calls\":[]\x7d thanks"
    c6GoodFields (Json.str "ok") [] rfl rfl rfl rfl


/-- Pushing one element per fold step builds the mapped list. -/
theorem foldl_push_eq_map {α β : Type} (g : α → β) (l : List α) :
    ∀ acc : List β, l.foldl (fun a x => a ++ [g x]) acc = acc ++ l.map g := by
  induction l with
  | nil => intro acc; simp
  | cons x xs ih => intro acc; simp [List.foldl_cons, ih]

/-- Both execution modes produce, in input order, exactly the entry built
from each call's own result: sequential iteration trivially, and
`Promise.all` because it settles its results by input index. -/
theorem executeBatch_eq_map (env : AgentEnv) (cfg : AgentConfig) (parallel : Bool)
    (tcs : List ToolCall) :
    executeBatch env cfg parallel tcs
      = tcs.map (fun tc => mkObsEntry tc (executeTool env cfg tc)) := by
  unfold executeBatch
  cases parallel with
  | true =>
    simp only [if_true]
    induction tcs with
    | nil => rfl
    | cons x xs ih => simp only [List.map_cons, List.zipWith_cons_cons, ih, List.map]
  | false =>
    simp only [Bool.false_eq_true, if_false]
    exact foldl_push_eq_map _ tcs []

/-- C7: for parallel execution of validated calls that all have a registered
handler, where the handler run of the call at index `j` throws `m` and every
other call's run succeeds, the executor returns exactly one ToolResult per
call, in input order (entry `i` carries call `i`'s tool and parameters), the
entry at `j` is `{error: m, success: false}`, and every other entry is
`{output, success: true}`. -/
theorem c7_parallel_single_failure (env : AgentEnv) (cfg : AgentConfig)
    (tcs : List ToolCall) (j : Nat) (m : String) (outs : Nat → Json)
    (hreg : ∀ tc ∈ tcs, cfg.availableTools.contains tc.tool = true)
    (hfail : ∀ tc, tcs[j]? = some tc → attemptRun env cfg tc = .error m)
    (hok : ∀ i tc, i ≠ j → tcs[i]? = some tc → attemptRun env cfg tc = .ok (outs i)) :
    (executeBatch env cfg true tcs).length = tcs.length ∧
    (∀ tc, tcs[j]? = some tc →
      (executeBatch env cfg true tcs)[j]? = some ⟨tc.tool, tc.parameters, .failure m⟩) ∧
    (∀ i tc, i ≠ j → tcs[i]? = some tc →
      (executeBatch env cfg true tcs)[i]? = some ⟨tc.tool, tc.parameters, .success (outs i)⟩) := by
  rw [executeBatch_eq_map]
  refine ⟨by simp, ?_, ?_⟩
  · intro tc h
    have hmem : tc ∈ tcs := List.getElem?_mem h
    rw [List.getElem?_map, h]
    simp only [Option.map_some']
    unfold executeTool
    rw [hreg tc hmem, hfail tc h]
    rfl
  · intro i tc hne h
    have hmem : tc ∈ tcs := List.getElem?_mem h
    rw [List.getElem?_map, h]
    simp only [Option.map_some']
    unfold executeTool
    rw [hreg tc hmem, hok i tc hne h]
    rfl

/-- The three C7 witness calls: two reads and a directory listing. -/
def tcR1 : ToolCall := ⟨"read_file", [("path", Json.str "a")]⟩

def tcR2 : ToolCall := ⟨"read_file", [("path", Json.str "b")]⟩

def tcLs : ToolCall := ⟨"list_directory", []⟩

/-- Environment for the C7 witness: reading path "b" throws "boom"; every
other call succeeds. -/
def envC7 : AgentEnv :=
  ⟨fun _ => .ok "", fun _ => "yes",
   fun _ ps =>
     match jLookup ps "path" with
     | some (.str p) => if p == "b" then .error "boom" else .ok (.str p)
     | _ => .ok (.str "dir")⟩

/-- Outputs of the two succeeding C7 witness calls by index. -/
def outsC7 : Nat → Json := fun i => if i == 0 then Json.str "a" else Json.str "dir"

/-- Witness for `c7_parallel_single_failure`: three parallel calls, the
middle one failing. -/
theorem c7_parallel_single_failure_witness :
    (executeBatch envC7 cfgOneStep true [tcR1, tcR2, tcLs]).length = [tcR1, tcR2, tcLs].length ∧
    (∀ tc, [tcR1, tcR2, tcLs][1]? = some tc →
      (executeBatch envC7 cfgOneStep true [tcR1, tcR2, tcLs])[1]? =
        some ⟨tc.tool, tc.parameters, .failure "boom"⟩) ∧
    (∀ i tc, i ≠ 1 → [tcR1, tcR2, tcLs][i]? = some tc →
      (executeBatch envC7 cfgOneStep true [tcR1, tcR2, tcLs])[i]? =
        some ⟨tc.tool, tc.parameters, .success (outsC7 i)⟩) := by
  refine c7_parallel_single_failure envC7 cfgOneStep [tcR1, tcR2, tcLs] 1 "boom" outsC7 ?_ ?_ ?_
  · intro tc htc
    simp only [List.mem_cons, List.not_mem_nil, or_false] at htc
    rcases htc with h | h | h <;> subst h <;> rfl
  · intro tc h
    have h1 : ([tcR1, tcR2, tcLs][1]? : Option ToolCall) = some tcR2 := rfl
    rw [h1] at h
    cases h
    rfl
  · intro i tc hne h
    match i with
    | 0 =>
      have h0 : ([tcR1, tcR2, tcLs][0]? : Option ToolCall) = some tcR1 := rfl
      rw [h0] at h
      cases h
      rfl
    | 1 => exact absurd rfl hne
    | 2 =>
      have h2 : ([tcR1, tcR2, tcLs][2]? : Option ToolCall) = some tcLs := rfl
      rw [h2] at h
      cases h
      rfl
    | n + 3 =>
      have hnone : ([tcR1, tcR2, tcLs][n + 3]? : Option ToolCall) = none :=
        List.getElem?_eq_none (by simp)
      rw [hnone] at h
      exact Option.noConfusion h


/-- When the serialized history is within budget the trimming loop exits
immediately: compaction is the identity. -/
theorem manageConversationHistory_of_le (cfg : AgentConfig) (h : List Message)
    (hle : (serializeHistory h).length ≤ cfg.maxHistoryTokens) :
    manageConversationHistory cfg h = h := by
  have hg : compactGuard cfg h = false := by
    unfold compactGuard
    simp [Nat.not_lt.mpr hle]
  unfold manageConversationHistory
  cases cfg.summarizer with
  | none => rfl
  | some f =>
    simp [compactLoop, hg]

/-- C8: for every model reply that the response parser rejects, the
orchestrator appends exactly one corrective message — quoting the parse
error and the raw reply — executes no tool in that step (the tool log is
unchanged), leaves `finalOutput` untouched, and the loop continues rather
than terminating the run.  (The history is assumed within the compaction
budget so that the pre-request compaction pass of `getLLMAction` is the
identity; compaction itself is the subject of C9/C10.) -/
theorem c8_parse_failure_one_corrective_message (env : AgentEnv) (cfg : AgentConfig)
    (st : AgentState) (r e : String)
    (hbudget : (serializeHistory st.history).length ≤ cfg.maxHistoryTokens)
    (hllm : env.llm (st.step + 1) = .ok r)
    (hparse : parseLLMResponse r = .error e) :
    stepOnce env cfg st = .next { st with
      step := st.step + 1, requests := st.requests + 1,
      history := st.history ++ [⟨"user", "Error: Your response was not valid JSON or did not follow the expected format. Please respond with a \x27thought\x27 and \x27tool_calls\x27 array. Error: " ++ e ++ ". Your last response was: " ++ r⟩] } := by
  simp only [stepOnce, manageConversationHistory_of_le cfg st.history hbudget, hllm, hparse]

/-- Environment for the C8 witness: every reply is the undecodable string
"hello". -/
def envC8 : AgentEnv :=
  ⟨fun _ => .ok "hello", fun _ => "yes", fun _ _ => .ok Json.null⟩

/-- A small starting state for the C8 witness. -/
def stC8 : AgentState :=
  ⟨[⟨"system", "p"⟩, ⟨"user", "Goal: g"⟩], none, 0, 0, []⟩

/-- Witness for `c8_parse_failure_one_corrective_message` on the concrete
reply "hello". -/
theorem c8_parse_failure_one_corrective_message_witness :
    stepOnce envC8 cfgOneStep stC8 = .next { stC8 with
      step := stC8.step + 1, requests := stC8.requests + 1,
      history := stC8.history ++ [⟨"user", "Error: Your response was not valid JSON or did not follow the expected format. Please respond with a \x27thought\x27 and \x27tool_calls\x27 array. Error: " ++ "Invalid JSON format: Unexpected token in JSON. Content: hello" ++ ". Your last response was: " ++ "hello"⟩] } :=
  c8_parse_failure_one_corrective_message envC8 cfgOneStep stC8 "hello"
    "Invalid JSON format: Unexpected token in JSON. Content: hello"
    (by decide) rfl rfl


/-- One trimming iteration on a history of length at least 3 keeps the two
protected entries and leaves at least two entries. -/
theorem compactStep_shape (f : String → Except String String) (a b c : Message)
    (t : List Message) :
    (compactStep f (a :: b :: c :: t)).take 2 = [a, b] ∧
    2 ≤ (compactStep f (a :: b :: c :: t)).length := by
  unfold compactStep
  simp only [List.getElem?_cons_succ, List.getElem?_cons_zero]
  by_cases hc : (c.role == "user" && strStartsWith c.content "Observation:") = true
  · rw [if_pos hc]
    cases f (strTrim (strDrop c.content ("Observation:".length))) with
    | ok s => simp [List.set]
    | error e => simp [List.eraseIdx]
  · rw [if_neg hc]
    simp [List.eraseIdx]

/-- The trimming loop never touches the two protected entries and never goes
below the floor of two entries. -/
theorem compactLoop_take2 (f : String → Except String String) (cfg : AgentConfig) :
    ∀ fuel h, (compactLoop f cfg fuel h).take 2 = h.take 2 ∧
      (2 ≤ h.length → 2 ≤ (compactLoop f cfg fuel h).length) := by
  intro fuel
  induction fuel with
  | zero => intro h; exact ⟨rfl, fun hl => hl⟩
  | succ n ih =>
    intro h
    rw [compactLoop]
    by_cases hg : compactGuard cfg h = true
    · rw [if_pos hg]
      have hlen : 2 < h.length := by
        unfold compactGuard at hg
        simp only [Bool.and_eq_true, decide_eq_true_eq] at hg
        exact hg.2
      rcases h with _ | ⟨a, _ | ⟨b, _ | ⟨c, t⟩⟩⟩
      · simp at hlen
      · simp at hlen
      · simp at hlen
      · have hstep := compactStep_shape f a b c t
        have hih := ih (compactStep f (a :: b :: c :: t))
        refine ⟨?_, fun _ => hih.2 hstep.2⟩
        rw [hih.1, hstep.1]
        rfl
    · rw [if_neg hg]
      exact ⟨rfl, fun hl => hl⟩

/-- C9: every compaction pass preserves the entries at index 0 (the system
prompt) and index 1 (the restated goal) — it only removes or rewrites
entries at index 2 or greater — and never shrinks the history below the
protected floor of two entries. -/
theorem c9_compaction_protects_floor (cfg : AgentConfig) (h : List Message) :
    (manageConversationHistory cfg h).take 2 = h.take 2 ∧
    (2 ≤ h.length → 2 ≤ (manageConversationHistory cfg h).length) := by
  unfold manageConversationHistory
  cases cfg.summarizer with
  | none => exact ⟨rfl, fun hl => hl⟩
  | some f => exact compactLoop_take2 f cfg (2 * h.length + 1) h

/-- Configuration for the C9 witness: a summarizer is configured and the
budget is tiny, so the pass actually trims. -/
def cfgC9 : AgentConfig :=
  ⟨sampleDefs, sampleAvailable, [], true, 1, 10, some (fun s => .ok s)⟩

/-- History for the C9 witness: the two protected entries, an observation
and one more entry. -/
def histC9 : List Message :=
  [⟨"system", "p"⟩, ⟨"user", "Goal: g"⟩, ⟨"user", "Observation: abc"⟩, ⟨"assistant", "x"⟩]

/-- Witness for `c9_compaction_protects_floor` on a pass that does trim. -/
theorem c9_compaction_protects_floor_witness :
    (manageConversationHistory cfgC9 histC9).take 2 = histC9.take 2 ∧
    2 ≤ (manageConversationHistory cfgC9 histC9).length :=
  ⟨(c9_compaction_protects_floor cfgC9 histC9).1,
   (c9_compaction_protects_floor cfgC9 histC9).2 (by decide)⟩

/-- Whether the front compactable entry (index 2) is a summarizable
observation. -/
def obsAt2 (h : List Message) : Bool :=
  match h[2]? with
  | some e => e.role == "user" && strStartsWith e.content "Observation:"
  | none => false

/-- Termination measure of the trimming loop: each iteration either removes
an entry or turns the front compactable entry into a non-observation. -/
def compactMeasure (h : List Message) : Nat :=
  2 * h.length + (if obsAt2 h then 1 else 0)

/-- A summarized replacement no longer carries the `Observation:` prefix. -/
theorem summarized_not_obs_prefix (s : String) :
    strStartsWith ("Summarized Observation: " ++ s) "Observation:" = false := by
  unfold strStartsWith
  rw [String.data_append]
  show ("Observation:".data.isPrefixOf ('S' :: ("ummarized Observation: ".data ++ s.data))) = false
  have hOS : (('O' : Char) == 'S') = false := by decide
  simp [List.isPrefixOf, hOS]

/-- Each iteration of the trimming loop strictly decreases the measure. -/
theorem compactStep_measure (f : String → Except String String) (cfg : AgentConfig)
    (h : List Message) (hg : compactGuard cfg h = true) :
    compactMeasure (compactStep f h) < compactMeasure h := by
  have hlen : 2 < h.length := by
    unfold compactGuard at hg
    simp only [Bool.and_eq_true, decide_eq_true_eq] at hg
    exact hg.2
  rcases h with _ | ⟨a, _ | ⟨b, _ | ⟨c, t⟩⟩⟩
  · simp at hlen
  · simp at hlen
  · simp at hlen
  · unfold compactStep
    simp only [List.getElem?_cons_succ, List.getElem?_cons_zero]
    by_cases hc : (c.role == "user" && strStartsWith c.content "Observation:") = true
    · rw [if_pos hc]
      cases f (strTrim (strDrop c.content ("Observation:".length))) with
      | ok s =>
        unfold compactMeasure obsAt2
        simp only [List.set, List.getElem?_cons_succ, List.getElem?_cons_zero, hc,
          List.length_cons, summarized_not_obs_prefix, Bool.and_false]
        simp
      | error e =>
        unfold compactMeasure obsAt2
        simp only [List.eraseIdx, List.getElem?_cons_succ, List.getElem?_cons_zero, hc,
          List.length_cons]
        split <;> omega
    · rw [if_neg hc]
      unfold compactMeasure obsAt2
      simp only [List.eraseIdx, List.getElem?_cons_succ, List.getElem?_cons_zero,
        List.length_cons]
      have hcf : (c.role == "user" && strStartsWith c.content "Observation:") = false :=
        Bool.not_eq_true _ |>.mp hc
      rw [hcf]
      split <;> omega

/-- With fuel at least the measure, the trimming loop reaches a state where
its `while` condition is false. -/
theorem compactLoop_guard_false (f : String → Except String String) (cfg : AgentConfig) :
    ∀ fuel h, compactMeasure h ≤ fuel →
      compactGuard cfg (compactLoop f cfg fuel h) = false := by
  intro fuel
  induction fuel with
  | zero =>
    intro h hle
    have h0 : h = [] := by
      have : h.length = 0 := by unfold compactMeasure at hle; omega
      exact List.length_eq_zero.mp this
    subst h0
    simp [compactLoop, compactGuard]
  | succ n ih =>
    intro h hle
    rw [compactLoop]
    by_cases hg : compactGuard cfg h = true
    · rw [if_pos hg]
      exact ih _ (by have := compactStep_measure f cfg h hg; omega)
    · rw [if_neg hg]
      exact Bool.not_eq_true _ |>.mp hg

/-- Once the fuel covers the measure, extra fuel changes nothing: the loop
has already stopped. -/
theorem compactLoop_stable (f : String → Except String String) (cfg : AgentConfig) :
    ∀ fuel k h, compactMeasure h ≤ fuel →
      compactLoop f cfg (fuel + k) h = compactLoop f cfg fuel h := by
  intro fuel
  induction fuel with
  | zero =>
    intro k h hle
    have h0 : h = [] := by
      have : h.length = 0 := by unfold compactMeasure at hle; omega
      exact List.length_eq_zero.mp this
    subst h0
    cases k with
    | zero => rfl
    | succ m =>
      rw [Nat.zero_add, compactLoop]
      simp [compactGuard, compactLoop]
  | succ n ih =>
    intro k h hle
    have harith : n + 1 + k = (n + k) + 1 := by omega
    rw [harith, compactLoop, compactLoop]
    by_cases hg : compactGuard cfg h = true
    · rw [if_pos hg, if_pos hg]
      exact ih k _ (by have := compactStep_measure f cfg h hg; omega)
    · rw [if_neg hg, if_neg hg]

/-- C10: for every history, budget and summarizer behaviour — including a
summarizer whose output is no shorter than its input or that always fails —
the history-compaction loop terminates: within `2·|h| + 1` iterations of the
source's loop body the `while` condition is false (each iteration either
removes an entry or rewrites the front compactable entry so that it no
longer matches the `Observation:` prefix and is removed by a following
iteration, with the length bounded below by the floor of 2), and running the
body any further changes nothing.  `manageConversationHistory` is exactly
`compactLoop` at this fuel. -/
theorem c10_compaction_terminates (f : String → Except String String)
    (cfg : AgentConfig) (h : List Message) :
    compactGuard cfg (compactLoop f cfg (2 * h.length + 1) h) = false ∧
    ∀ k : Nat, compactLoop f cfg (2 * h.length + 1 + k) h
      = compactLoop f cfg (2 * h.length + 1) h := by
  have hm : compactMeasure h ≤ 2 * h.length + 1 := by
    unfold compactMeasure
    split <;> omega
  exact ⟨compactLoop_guard_false f cfg _ h hm, fun k => compactLoop_stable f cfg _ k h hm⟩


/-- When the step's reply cannot produce a `finish` call, one loop iteration
always falls through to the next iteration, counts one model request, bumps
the step counter, and leaves `finalOutput` untouched. -/
theorem stepOnce_no_finish (env : AgentEnv) (cfg : AgentConfig) (st : AgentState)
    (hnf : ∀ r parsed, env.llm (st.step + 1) = .ok r → parseLLMResponse r = .ok parsed →
      ∀ j ∈ parsed.toolCalls, (toolCallOfJson j).tool ≠ "finish") :
    ∃ st', stepOnce env cfg st = .next st' ∧ st'.step = st.step + 1 ∧
      st'.requests = st.requests + 1 ∧ st'.finalOutput = st.finalOutput := by
  simp only [stepOnce]
  split
  · exact ⟨_, rfl, rfl, rfl, rfl⟩
  · rename_i r hllm
    split
    · exact ⟨_, rfl, rfl, rfl, rfl⟩
    · rename_i parsed hp
      split
      · split
        · exact ⟨_, rfl, rfl, rfl, rfl⟩
        · split
          · exfalso
            rename_i finishToolCall heq
            have hmem := List.mem_of_find?_eq_some heq
            have hpred := List.find?_some heq
            obtain ⟨j, hj, hjf⟩ := List.mem_map.mp hmem
            have hne := hnf r parsed hllm hp j hj
            rw [hjf] at hne
            exact hne (by simpa using hpred)
          · exact ⟨_, rfl, rfl, rfl, rfl⟩
      · exact ⟨_, rfl, rfl, rfl, rfl⟩

/-- When no reply of the run can produce a `finish` call, the loop runs its
whole budget: the step and request counters advance by the budget and
`finalOutput` stays as it started. -/
theorem runLoop_no_finish (env : AgentEnv) (cfg : AgentConfig)
    (Hnf : ∀ n r parsed, env.llm n = .ok r → parseLLMResponse r = .ok parsed →
      ∀ j ∈ parsed.toolCalls, (toolCallOfJson j).tool ≠ "finish") :
    ∀ rem st, (runLoop env cfg rem st).step = st.step + rem ∧
      (runLoop env cfg rem st).requests = st.requests + rem ∧
      (runLoop env cfg rem st).finalOutput = st.finalOutput := by
  intro rem
  induction rem with
  | zero => intro st; exact ⟨rfl, rfl, rfl⟩
  | succ k ih =>
    intro st
    obtain ⟨st', hs, h1, h2, h3⟩ := stepOnce_no_finish env cfg st
      (fun r parsed hr hp => Hnf (st.step + 1) r parsed hr hp)
    rw [runLoop, hs]
    have hih := ih st'
    refine ⟨?_, ?_, ?_⟩
    · show (runLoop env cfg k st').step = st.step + (k + 1)
      rw [hih.1, h1]
      omega
    · show (runLoop env cfg k st').requests = st.requests + (k + 1)
      rw [hih.2.1, h2]
      omega
    · show (runLoop env cfg k st').finalOutput = st.finalOutput
      rw [hih.2.2, h3]

/-- C3 (amended): for every run whose model never produces a `finish` call,
the loop performs exactly `maxSteps` model requests and then terminates with
a non-null FinalOutput — synthesized from the *last conversation-history
entry* (the post-observation system instruction or a corrective message),
not from the last Observation entry (see the counterexample). -/
theorem c3_max_steps_fallback (env : AgentEnv) (cfg : AgentConfig) (goal : String)
    (Hnf : ∀ n r parsed, env.llm n = .ok r → parseLLMResponse r = .ok parsed →
      ∀ j ∈ parsed.toolCalls, (toolCallOfJson j).tool ≠ "finish") :
    (runAgent env cfg goal).state.requests = cfg.maxSteps ∧
    (runAgent env cfg goal).output = some (.str (maxStepsFallbackPrefix
      ++ serializeMessage ((runAgent env cfg goal).state.history.getLastD default))) := by
  have h := runLoop_no_finish env cfg Hnf cfg.maxSteps ⟨seedHistory cfg goal, none, 0, 0, []⟩
  simp only [runAgent]
  set stf := runLoop env cfg cfg.maxSteps ⟨seedHistory cfg goal, none, 0, 0, []⟩ with hstf
  have hreq : stf.requests = cfg.maxSteps := by
    rw [h.2.1]
    show 0 + cfg.maxSteps = cfg.maxSteps
    omega
  have hcond : (decide (cfg.maxSteps ≤ stf.step) && stf.finalOutput.isNone) = true := by
    rw [h.1, h.2.2]
    show (decide (cfg.maxSteps ≤ 0 + cfg.maxSteps) && true) = true
    simp
  refine ⟨?_, ?_⟩
  · split
    · exact hreq
    · exact hreq
  · split
    · rfl
    · rename_i hc
      exact absurd hcond hc

/-- Configuration for the C3 witness: two steps, no summarizer. -/
def cfgTwoSteps : AgentConfig :=
  ⟨sampleDefs, sampleAvailable, [], true, 2, 100000, none⟩

/-- The decoded tool call of the C3 fixtures. -/
def jsonLsCall : Json :=
  Json.obj [("tool", Json.str "list_directory"), ("parameters", Json.obj [])]

/-- Witness for `c3_max_steps_fallback`: the model asks for `list_directory`
at both steps and never for `finish`; the run issues exactly 2 model
requests and returns the synthesized fallback. -/
theorem c3_max_steps_fallback_witness :
    (runAgent envC3 cfgTwoSteps "g").state.requests = cfgTwoSteps.maxSteps ∧
    (runAgent envC3 cfgTwoSteps "g").output = some (.str (maxStepsFallbackPrefix
      ++ serializeMessage ((runAgent envC3 cfgTwoSteps "g").state.history.getLastD default))) := by
  refine c3_max_steps_fallback envC3 cfgTwoSteps "g" ?_
  intro n r parsed hr hp
  have hr' : r = "\x7b\"thought\":\"t\",\"tool_calls\":[\x7b\"tool\":\"list_directory\",\"parameters\":\x7b\x7d\x7d]\x7d" := by
    injection hr with h
    exact h.symm
  subst hr'
  have hP : parseLLMResponse
      "\x7b\"thought\":\"t\",\"tool_calls\":[\x7b\"tool\":\"list_directory\",\"parameters\":\x7b\x7d\x7d]\x7d"
      = .ok ⟨Json.str "t", [jsonLsCall], false⟩ := rfl
  rw [hP] at hp
  injection hp with h2
  subst h2
  intro j hj
  simp only [List.mem_singleton] at hj
  subst hj
  decide

/-- C3 counterexample: a one-step run that executes a tool has exactly one
Observation entry in its history, yet the synthesized FinalOutput quotes the
final history entry (the post-observation system instruction) and differs
from the message the claim prescribes (the prefix plus the last Observation
entry). -/
theorem c3_counterexample :
    ((runAgent envC3 cfgOneStep "g").state.history.filter
        (fun m => strStartsWith m.content "Observation:")).map (fun m => m.content) =
      ["Observation: [\x7b\"tool\":\"list_directory\",\"parameters\":\x7b\x7d,\"output\":\"FILES\",\"success\":true\x7d]"] ∧
    (runAgent envC3 cfgOneStep "g").output =
      some (.str (maxStepsFallbackPrefix ++ serializeMessage ⟨"system", postObservationMsg⟩)) ∧
    maxStepsFallbackPrefix ++ serializeMessage ⟨"system", postObservationMsg⟩ ≠
      maxStepsFallbackPrefix ++ serializeMessage
        ⟨"user", "Observation: [\x7b\"tool\":\"list_directory\",\"parameters\":\x7b\x7d,\"output\":\"FILES\",\"success\":true\x7d]"⟩ := by
  refine ⟨rfl, rfl, ?_⟩
  decide

end Pipe
